import Mathlib

/-!
Verification of the diagnostic core of `mosaic` (`src/common/errors.rs`):
the bounded per-thread call-stack recorder (`ErrorContext`), the call-site
tag taxonomy (`ContextType` and its subsystem sub-tags), the tag converters
(the `From` impls for `ScreenContext`, `PtyContext`, `PluginContext`,
`AppContext`) and the panic capture and routing function `handle_panic`.

The Rust code is shallowly embedded: pure functions become Lean functions,
`Display` impls become `String`-valued functions, and the effects of
`handle_panic` (printing, process exit, the channel send and the `.unwrap()`
on its result) are reified in a `HandlePanicResult` record.  The outcome of
the channel send, which depends on whether the supervisor's receiver is
still alive, is an explicit boolean input `sendOk`.
-/

namespace Mosaic

/-- `MAX_THREAD_CALL_STACK` from `errors.rs`. -/
def MAX_THREAD_CALL_STACK : Nat := 6

/-- An element of the error context related to `ScreenInstruction`s
(`enum ScreenContext` in `errors.rs`). -/
inductive ScreenContext
  | HandlePtyEvent
  | Render
  | NewPane
  | HorizontalSplit
  | VerticalSplit
  | WriteCharacter
  | ResizeLeft
  | ResizeRight
  | ResizeDown
  | ResizeUp
  | MoveFocus
  | MoveFocusLeft
  | MoveFocusDown
  | MoveFocusUp
  | MoveFocusRight
  | Quit
  | ScrollUp
  | ScrollDown
  | ClearScroll
  | CloseFocusedPane
  | ToggleActiveTerminalFullscreen
  | SetSelectable
  | SetInvisibleBorders
  | SetMaxHeight
  | ClosePane
  | ApplyLayout
  | NewTab
  | SwitchTabNext
  | SwitchTabPrev
  | CloseTab
deriving DecidableEq, Fintype

/-- An element of the error context related to `PtyInstruction`s
(`enum PtyContext` in `errors.rs`). -/
inductive PtyContext
  | SpawnTerminal
  | SpawnTerminalVertically
  | SpawnTerminalHorizontally
  | NewTab
  | ClosePane
  | CloseTab
  | Quit
deriving DecidableEq, Fintype

/-- An element of the error context related to `PluginInstruction`s
(`enum PluginContext` in `errors.rs`). -/
inductive PluginContext
  | Load
  | Draw
  | Input
  | GlobalInput
  | Unload
  | Quit
deriving DecidableEq, Fintype

/-- An element of the error context related to `AppInstruction`s
(`enum AppContext` in `errors.rs`). -/
inductive AppContext
  | GetState
  | SetState
  | Exit
  | Error
deriving DecidableEq, Fintype

/-- The call-site tag taxonomy (`enum ContextType` in `errors.rs`). -/
inductive ContextType
  | Screen (c : ScreenContext)
  | Pty (c : PtyContext)
  | Plugin (c : PluginContext)
  | App (c : AppContext)
  | IPCServer
  | StdinHandler
  | AsyncTask
  | Empty
deriving DecidableEq

/-- The string the Rust `Debug` derive prints for a `ScreenContext` value
(the variant's name), used by `ContextType`'s `Display` impl via `{:?}`. -/
def ScreenContext.debugStr : ScreenContext → String
  | .HandlePtyEvent => "HandlePtyEvent"
  | .Render => "Render"
  | .NewPane => "NewPane"
  | .HorizontalSplit => "HorizontalSplit"
  | .VerticalSplit => "VerticalSplit"
  | .WriteCharacter => "WriteCharacter"
  | .ResizeLeft => "ResizeLeft"
  | .ResizeRight => "ResizeRight"
  | .ResizeDown => "ResizeDown"
  | .ResizeUp => "ResizeUp"
  | .MoveFocus => "MoveFocus"
  | .MoveFocusLeft => "MoveFocusLeft"
  | .MoveFocusDown => "MoveFocusDown"
  | .MoveFocusUp => "MoveFocusUp"
  | .MoveFocusRight => "MoveFocusRight"
  | .Quit => "Quit"
  | .ScrollUp => "ScrollUp"
  | .ScrollDown => "ScrollDown"
  | .ClearScroll => "ClearScroll"
  | .CloseFocusedPane => "CloseFocusedPane"
  | .ToggleActiveTerminalFullscreen => "ToggleActiveTerminalFullscreen"
  | .SetSelectable => "SetSelectable"
  | .SetInvisibleBorders => "SetInvisibleBorders"
  | .SetMaxHeight => "SetMaxHeight"
  | .ClosePane => "ClosePane"
  | .ApplyLayout => "ApplyLayout"
  | .NewTab => "NewTab"
  | .SwitchTabNext => "SwitchTabNext"
  | .SwitchTabPrev => "SwitchTabPrev"
  | .CloseTab => "CloseTab"

/-- Rust `Debug` output for a `PtyContext` value. -/
def PtyContext.debugStr : PtyContext → String
  | .SpawnTerminal => "SpawnTerminal"
  | .SpawnTerminalVertically => "SpawnTerminalVertically"
  | .SpawnTerminalHorizontally => "SpawnTerminalHorizontally"
  | .NewTab => "NewTab"
  | .ClosePane => "ClosePane"
  | .CloseTab => "CloseTab"
  | .Quit => "Quit"

/-- Rust `Debug` output for a `PluginContext` value. -/
def PluginContext.debugStr : PluginContext → String
  | .Load => "Load"
  | .Draw => "Draw"
  | .Input => "Input"
  | .GlobalInput => "GlobalInput"
  | .Unload => "Unload"
  | .Quit => "Quit"

/-- Rust `Debug` output for an `AppContext` value. -/
def AppContext.debugStr : AppContext → String
  | .GetState => "GetState"
  | .SetState => "SetState"
  | .Exit => "Exit"
  | .Error => "Error"

/-- The `Display` impl for `ContextType` in `errors.rs`. -/
def ContextType.display (t : ContextType) : String :=
  let purple := "\x1b[1;35m"
  let green := "\x1b[0;32m"
  match t with
  | .Screen c => purple ++ "screen_thread: " ++ green ++ c.debugStr
  | .Pty c => purple ++ "pty_thread: " ++ green ++ c.debugStr
  | .Plugin c => purple ++ "plugin_thread: " ++ green ++ c.debugStr
  | .App c => purple ++ "main_thread: " ++ green ++ c.debugStr
  | .IPCServer => purple ++ "ipc_server: " ++ green ++ "AcceptInput"
  | .StdinHandler => purple ++ "stdin_handler_thread: " ++ green ++ "AcceptInput"
  | .AsyncTask => purple ++ "stream_terminal_bytes: " ++ green ++ "AsyncTask"
  | .Empty => ""

/-- `struct ErrorContext` from `errors.rs`: the fixed array
`calls: [ContextType; MAX_THREAD_CALL_STACK]` is embedded as a list (its
length is `MAX_THREAD_CALL_STACK` for every context built by `new`). -/
structure ErrorContext where
  calls : List ContextType
deriving DecidableEq

/-- `ErrorContext::new()`: all slots `Empty`. -/
def ErrorContext.new : ErrorContext :=
  { calls := List.replicate MAX_THREAD_CALL_STACK ContextType.Empty }

/-- The loop body of `ErrorContext::add_call`: write `call` into the first
`Empty` slot and stop; if no slot is `Empty` the array is unchanged. -/
def addFirst : List ContextType → ContextType → List ContextType
  | [], _ => []
  | c :: rest, call =>
    if c = ContextType.Empty then call :: rest else c :: addFirst rest call

/-- `ErrorContext::add_call` (its effect on the `calls` array; the method
also republishes the whole context into the thread-local `OPENCALLS` slot,
which the panic handler reads back as its `err_ctx` input). -/
def ErrorContext.add_call (e : ErrorContext) (call : ContextType) : ErrorContext :=
  { calls := addFirst e.calls call }

/-- A whole sequence of `add_call` invocations, first element first. -/
def applyCalls (e : ErrorContext) : List ContextType → ErrorContext
  | [] => e
  | c :: cs => applyCalls (e.add_call c) cs

/-- The loop of the `Display` impl for `ErrorContext`: one numbered line per
slot, stopping at the first `Empty` slot; `index` is the zero-based slot
index reached so far. -/
def displayCallsFrom : List ContextType → Nat → String
  | [], _ => ""
  | c :: rest, index =>
    if c = ContextType.Empty then ""
    else
      "\x1b[0;0m" ++ toString (index + 1) ++ ". " ++ c.display ++ "\n" ++
        displayCallsFrom rest (index + 1)

/-- The `Display` impl for `ErrorContext` in `errors.rs` (each `writeln!`
appends a newline). -/
def ErrorContext.display (e : ErrorContext) : String :=
  "Originating Thread(s):\n" ++ displayCallsFrom e.calls 0

/-- Modelled from the spec: `enum ScreenInstruction` is declared in
`src/screen.rs`, which is not part of the staged sources; the spec treats the
instruction enums as external collaborators whose variant set is kept in
lockstep with the sub-tags.  The variant list is exactly the one the
exhaustive (wildcard-free) `match` of `impl From<&ScreenInstruction> for
ScreenContext` in `errors.rs` covers; payload types live outside the staged
sources and are embedded as `Unit`, since the converters discard them. -/
inductive ScreenInstruction
  | Pty (payload : Unit)
  | Render
  | NewPane (payload : Unit)
  | HorizontalSplit (payload : Unit)
  | VerticalSplit (payload : Unit)
  | WriteCharacter (payload : Unit)
  | ResizeLeft
  | ResizeRight
  | ResizeDown
  | ResizeUp
  | MoveFocus
  | MoveFocusLeft
  | MoveFocusDown
  | MoveFocusUp
  | MoveFocusRight
  | Quit
  | ScrollUp
  | ScrollDown
  | ClearScroll
  | CloseFocusedPane
  | ToggleActiveTerminalFullscreen
  | SetSelectable (payload : Unit)
  | SetInvisibleBorders (payload : Unit)
  | SetMaxHeight (payload : Unit)
  | ClosePane (payload : Unit)
  | ApplyLayout (payload : Unit)
  | NewTab (payload : Unit)
  | SwitchTabNext
  | SwitchTabPrev
  | CloseTab
deriving DecidableEq, Fintype

/-- Modelled from the spec: `enum PtyInstruction` is declared in
`src/pty_bus.rs`, not part of the staged sources; variants are those of the
exhaustive `match` of `impl From<&PtyInstruction> for PtyContext` in
`errors.rs`, payloads embedded as `Unit`. -/
inductive PtyInstruction
  | SpawnTerminal (payload : Unit)
  | SpawnTerminalVertically (payload : Unit)
  | SpawnTerminalHorizontally (payload : Unit)
  | NewTab
  | ClosePane (payload : Unit)
  | CloseTab (payload : Unit)
  | Quit
deriving DecidableEq, Fintype

/-- Modelled from the spec: `enum PluginInstruction` is declared in
`src/wasm_vm.rs`, not part of the staged sources; variants are those of the
exhaustive `match` of `impl From<&PluginInstruction> for PluginContext` in
`errors.rs`, payloads embedded as `Unit`. -/
inductive PluginInstruction
  | Load (payload : Unit)
  | Draw (payload : Unit)
  | Input (payload : Unit)
  | GlobalInput (payload : Unit)
  | Unload (payload : Unit)
  | Quit
deriving DecidableEq, Fintype

/-- Modelled from the spec: `enum AppInstruction` is declared in
`src/common/mod.rs`, not part of the staged sources; variants are those of
the exhaustive `match` of `impl From<&AppInstruction> for AppContext` in
`errors.rs`.  `Error` carries the report string, since `handle_panic` in
`errors.rs` sends `AppInstruction::Error(backtrace)`; the other payloads are
embedded as `Unit`. -/
inductive AppInstruction
  | GetState (payload : Unit)
  | SetState (payload : Unit)
  | Exit
  | Error (report : String)
deriving DecidableEq

/-- `impl From<&ScreenInstruction> for ScreenContext` in `errors.rs`. -/
def ScreenContext.fromInstruction : ScreenInstruction → ScreenContext
  | .Pty _ => .HandlePtyEvent
  | .Render => .Render
  | .NewPane _ => .NewPane
  | .HorizontalSplit _ => .HorizontalSplit
  | .VerticalSplit _ => .VerticalSplit
  | .WriteCharacter _ => .WriteCharacter
  | .ResizeLeft => .ResizeLeft
  | .ResizeRight => .ResizeRight
  | .ResizeDown => .ResizeDown
  | .ResizeUp => .ResizeUp
  | .MoveFocus => .MoveFocus
  | .MoveFocusLeft => .MoveFocusLeft
  | .MoveFocusDown => .MoveFocusDown
  | .MoveFocusUp => .MoveFocusUp
  | .MoveFocusRight => .MoveFocusRight
  | .Quit => .Quit
  | .ScrollUp => .ScrollUp
  | .ScrollDown => .ScrollDown
  | .ClearScroll => .ClearScroll
  | .CloseFocusedPane => .CloseFocusedPane
  | .ToggleActiveTerminalFullscreen => .ToggleActiveTerminalFullscreen
  | .SetSelectable _ => .SetSelectable
  | .SetInvisibleBorders _ => .SetInvisibleBorders
  | .SetMaxHeight _ => .SetMaxHeight
  | .ClosePane _ => .ClosePane
  | .ApplyLayout _ => .ApplyLayout
  | .NewTab _ => .NewTab
  | .SwitchTabNext => .SwitchTabNext
  | .SwitchTabPrev => .SwitchTabPrev
  | .CloseTab => .CloseTab

/-- `impl From<&PtyInstruction> for PtyContext` in `errors.rs`. -/
def PtyContext.fromInstruction : PtyInstruction → PtyContext
  | .SpawnTerminal _ => .SpawnTerminal
  | .SpawnTerminalVertically _ => .SpawnTerminalVertically
  | .SpawnTerminalHorizontally _ => .SpawnTerminalHorizontally
  | .ClosePane _ => .ClosePane
  | .CloseTab _ => .CloseTab
  | .NewTab => .NewTab
  | .Quit => .Quit

/-- `impl From<&PluginInstruction> for PluginContext` in `errors.rs`. -/
def PluginContext.fromInstruction : PluginInstruction → PluginContext
  | .Load _ => .Load
  | .Draw _ => .Draw
  | .Input _ => .Input
  | .GlobalInput _ => .GlobalInput
  | .Unload _ => .Unload
  | .Quit => .Quit

/-- `impl From<&AppInstruction> for AppContext` in `errors.rs`. -/
def AppContext.fromInstruction : AppInstruction → AppContext
  | .GetState _ => .GetState
  | .SetState _ => .SetState
  | .Exit => .Exit
  | .Error _ => .Error

/-- A panic's source location (`std::panic::Location`): file and line. -/
structure Location where
  file : String
  line : Nat
deriving DecidableEq

/-- What `handle_panic` did: printed the report and called `process::exit 1`
(`exit`), returned normally after a successful channel send (`ret`), or
panicked itself because `.unwrap()` was called on a failed send
(`panicked`). -/
inductive PanicOutcome
  | exit (code : Nat)
  | ret
  | panicked
deriving DecidableEq

/-- The observable effects of one `handle_panic` invocation: what was
printed to stdout, what was delivered on the supervisor's channel, and how
the handler finished. -/
structure HandlePanicResult where
  printed : List String
  sent : List AppInstruction
  outcome : PanicOutcome
deriving DecidableEq

/-- The `match (info.location(), msg)` of `handle_panic` in `errors.rs`,
composing the report (the Rust code shadows the name `backtrace` with it):
the `Display` of the thread's `ErrorContext`, then the header line naming
the thread and embedding whatever of the message and location is available,
then the `Debug` print of the captured native backtrace (an opaque input
string here). -/
def composeBacktrace (thread : String) (msg : Option String)
    (location : Option Location) (err_ctx : ErrorContext)
    (backtraceStr : String) : String :=
  match location, msg with
  | some l, some m =>
    err_ctx.display ++ "\n\x1b[0;0mError: \x1b[0;31mthread '" ++ thread ++
      "' panicked at '" ++ m ++ "': " ++ l.file ++ ":" ++ toString l.line ++
      "\n\x1b[0;0m" ++ backtraceStr
  | some l, none =>
    err_ctx.display ++ "\n\x1b[0;0mError: \x1b[0;31mthread '" ++ thread ++
      "' panicked: " ++ l.file ++ ":" ++ toString l.line ++
      "\n\x1b[0;0m" ++ backtraceStr
  | none, some m =>
    err_ctx.display ++ "\n\x1b[0;0mError: \x1b[0;31mthread '" ++ thread ++
      "' panicked at '" ++ m ++ "'\n\x1b[0;0m" ++ backtraceStr
  | none, none =>
    err_ctx.display ++ "\n\x1b[0;0mError: \x1b[0;31mthread '" ++ thread ++
      "' panicked\n\x1b[0;0m" ++ backtraceStr

/-- `handle_panic` from `errors.rs`.  Inputs reify what the handler reads
from its environment: the current thread's name (`None` when the thread is
unnamed), the panic payload's message, the panic's source location, the
thread-local `ErrorContext` read from `OPENCALLS`, the captured native
backtrace, and whether the send on the supervisor's channel succeeds
(`sendOk = false` models `SenderWithContext::send` returning `Err`, e.g.
when the supervisor's receiver is gone).  On the main thread the report is
printed and the process exits with status 1; otherwise the report is sent as
`AppInstruction::Error` and the `Result` is `.unwrap()`ed, so a failed send
makes the handler itself panic and nothing is delivered. -/
def handle_panic (threadName : Option String) (msg : Option String)
    (location : Option Location) (err_ctx : ErrorContext)
    (backtraceStr : String) (sendOk : Bool) : HandlePanicResult :=
  let thread := threadName.getD "unnamed"
  let backtrace := composeBacktrace thread msg location err_ctx backtraceStr
  if thread = "main" then
    { printed := [backtrace], sent := [], outcome := .exit 1 }
  else if sendOk then
    { printed := [], sent := [.Error backtrace], outcome := .ret }
  else
    { printed := [], sent := [], outcome := .panicked }

/-! ### Vocabulary for the report-shape claims

Substring occurrence and ordered occurrence of several substrings, stated
over the character lists of the strings involved. -/

/-- `needle` occurs somewhere in `hay`. -/
def occursIn (needle hay : List Char) : Prop :=
  ∃ s t, hay = s ++ needle ++ t

/-- `needle` occurs somewhere in `hay`, as strings. -/
def strOccurs (needle hay : String) : Prop :=
  occursIn needle.data hay.data

/-- `needle` occurs in `hay` starting at index `i`. -/
def matchAt (needle hay : List Char) (i : Nat) : Prop :=
  ∃ t, hay.drop i = needle ++ t

/-- The needles all occur in `hay`, at strictly increasing start indices,
in the order listed: the head occurs at some index `i` and the rest occur,
in order, at indices greater than `i`. -/
def InOrderE : List (List Char) → List Char → Prop
  | [], _ => True
  | n :: ns, hay => ∃ i, matchAt n hay i ∧ InOrderE ns (hay.drop (i + 1))

/-- Executable check that `n` is a leading segment of `h`. -/
def leadsWith : List Char → List Char → Bool
  | [], _ => true
  | _ :: _, [] => false
  | a :: as, b :: bs => a == b && leadsWith as bs

/-- Index of the first occurrence of `n` in `h`, if any. -/
def firstMatch (n : List Char) : List Char → Option Nat
  | [] => if leadsWith n [] then some 0 else none
  | c :: rest =>
    if leadsWith n (c :: rest) then some 0
    else (firstMatch n rest).map (· + 1)

/-- Executable, greedy version of `InOrderE`: take each needle's earliest
occurrence and continue past its start. -/
def inOrderB : List (List Char) → List Char → Bool
  | [], _ => true
  | n :: ns, hay =>
    match firstMatch n hay with
    | none => false
    | some i => inOrderB ns (hay.drop (i + 1))

/-- The report lines the spec's words ask for (claim C4): "one numbered line
per tag, in the order the calls were made, numbered from 1" — rendering every
recorded tag, with no early stop.  This is the spec-side rendering, to be
compared with the code's `displayCallsFrom`. -/
def specNumberedLines : List ContextType → Nat → String
  | [], _ => ""
  | c :: cs, index =>
    "\x1b[0;0m" ++ toString (index + 1) ++ ". " ++ c.display ++ "\n" ++
      specNumberedLines cs (index + 1)

/-- The context of claim C2: tags `Screen/Render` then `Pty/SpawnTerminal`
recorded on a fresh context. -/
def c2ctx : ErrorContext :=
  (ErrorContext.new.add_call (.Screen .Render)).add_call (.Pty .SpawnTerminal)

/-- Claim C2's panic, routed by `handle_panic`: thread "main", message
"boom", location `x.src:42`, the context above, and an arbitrary concrete
backtrace. -/
def c2result : HandlePanicResult :=
  handle_panic (some "main") (some "boom") (some { file := "x.src", line := 42 })
    c2ctx "stack trace" true

/-- The report claim C2's panic prints. -/
def c2report : String := c2result.printed.headD ""

/-! ### Lemmas about the matching vocabulary -/

theorem leadsWith_iff (n : List Char) : ∀ h : List Char,
    leadsWith n h = true ↔ ∃ t, h = n ++ t := by
  induction n with
  | nil => intro h; simp [leadsWith]
  | cons a as ih =>
    intro h
    cases h with
    | nil => simp [leadsWith]
    | cons b bs =>
      simp only [leadsWith, Bool.and_eq_true, beq_iff_eq, ih, List.cons_append,
        List.cons.injEq]
      constructor
      · rintro ⟨rfl, t, rfl⟩; exact ⟨t, rfl, rfl⟩
      · rintro ⟨t, rfl, rfl⟩; exact ⟨rfl, t, rfl⟩

theorem firstMatch_sound {n : List Char} : ∀ {hay : List Char} {i : Nat},
    firstMatch n hay = some i → matchAt n hay i := by
  intro hay
  induction hay with
  | nil =>
    intro i h
    by_cases hl : leadsWith n [] = true
    · simp only [firstMatch, if_pos hl, Option.some.injEq] at h
      subst h
      obtain ⟨t, ht⟩ := (leadsWith_iff n []).mp hl
      exact ⟨t, ht⟩
    · simp [firstMatch, hl] at h
  | cons c rest ih =>
    intro i h
    by_cases hl : leadsWith n (c :: rest) = true
    · simp only [firstMatch, if_pos hl, Option.some.injEq] at h
      subst h
      obtain ⟨t, ht⟩ := (leadsWith_iff n (c :: rest)).mp hl
      exact ⟨t, ht⟩
    · simp only [firstMatch, if_neg hl, Option.map_eq_some'] at h
      obtain ⟨j, hj, rfl⟩ := h
      obtain ⟨t, ht⟩ := ih hj
      exact ⟨t, ht⟩

theorem firstMatch_min {n : List Char} : ∀ {hay : List Char} {i : Nat},
    matchAt n hay i → ∃ j, firstMatch n hay = some j ∧ j ≤ i := by
  intro hay
  induction hay with
  | nil =>
    intro i h
    obtain ⟨t, ht⟩ := h
    simp only [List.drop_nil] at ht
    have hn : n = [] := by
      cases n with
      | nil => rfl
      | cons a as => simp at ht
    subst hn
    exact ⟨0, by simp [firstMatch, leadsWith], Nat.zero_le i⟩
  | cons c rest ih =>
    intro i h
    by_cases hl : leadsWith n (c :: rest) = true
    · exact ⟨0, by simp [firstMatch, hl], Nat.zero_le i⟩
    · cases i with
      | zero =>
        obtain ⟨t, ht⟩ := h
        simp only [List.drop_zero] at ht
        exact absurd ((leadsWith_iff n (c :: rest)).mpr ⟨t, ht⟩) hl
      | succ i' =>
        obtain ⟨t, ht⟩ := h
        have : matchAt n rest i' := ⟨t, ht⟩
        obtain ⟨j, hj, hji⟩ := ih this
        exact ⟨j + 1, by simp [firstMatch, hl, hj], Nat.succ_le_succ hji⟩

theorem inOrderE_drop_of_le {ns : List (List Char)} {hay : List Char} {i j : Nat}
    (h : InOrderE ns (hay.drop i)) (hle : j ≤ i) : InOrderE ns (hay.drop j) := by
  cases ns with
  | nil => trivial
  | cons n ns =>
    simp only [InOrderE] at h ⊢
    obtain ⟨k, ⟨t, ht⟩, hrest⟩ := h
    rw [List.drop_drop] at ht hrest
    refine ⟨i + k - j, ⟨t, ?_⟩, ?_⟩
    · rw [List.drop_drop]
      have he : j + (i + k - j) = i + k := by omega
      rw [he]; exact ht
    · rw [List.drop_drop]
      have he : j + (i + k - j + 1) = i + (k + 1) := by omega
      rw [he]; exact hrest

theorem inOrderB_complete {ns : List (List Char)} : ∀ {hay : List Char},
    InOrderE ns hay → inOrderB ns hay = true := by
  induction ns with
  | nil => intro hay _; rfl
  | cons n ns ih =>
    intro hay h
    simp only [InOrderE] at h
    obtain ⟨i, hm, hrest⟩ := h
    obtain ⟨j, hj, hji⟩ := firstMatch_min hm
    have : InOrderE ns (hay.drop (j + 1)) :=
      inOrderE_drop_of_le hrest (Nat.succ_le_succ hji)
    simp [inOrderB, hj, ih this]

theorem inOrderB_sound {ns : List (List Char)} : ∀ {hay : List Char},
    inOrderB ns hay = true → InOrderE ns hay := by
  induction ns with
  | nil => intro hay _; trivial
  | cons n ns ih =>
    intro hay h
    simp only [inOrderB] at h
    cases hfm : firstMatch n hay with
    | none => rw [hfm] at h; simp at h
    | some i =>
      rw [hfm] at h
      exact ⟨i, firstMatch_sound hfm, ih h⟩

theorem occursIn_of_parts {n m : List Char} (a b hay : List Char)
    (h : occursIn n m) (hhay : hay = a ++ m ++ b) : occursIn n hay := by
  obtain ⟨s, t, rfl⟩ := h
  exact ⟨a ++ s, t ++ b, by simp [hhay, List.append_assoc]⟩

theorem strOccurs_self (s : String) : strOccurs s s :=
  ⟨[], [], by simp⟩

/-! ### Lemmas about the recorder -/

theorem addFirst_empty : ∀ l : List ContextType, addFirst l ContextType.Empty = l := by
  intro l
  induction l with
  | nil => rfl
  | cons c rest ih =>
    by_cases hc : c = ContextType.Empty
    · subst hc; simp [addFirst]
    · simp [addFirst, hc, ih]

theorem addFirst_no_empty {F : List ContextType}
    (hF : ∀ t ∈ F, t ≠ ContextType.Empty) (c : ContextType) : addFirst F c = F := by
  induction F with
  | nil => rfl
  | cons f rest ih =>
    have hf : f ≠ ContextType.Empty := hF f (List.mem_cons_self f rest)
    simp only [addFirst, if_neg hf, List.cons.injEq, true_and]
    exact ih fun t ht => hF t (List.mem_cons_of_mem f ht)

theorem addFirst_filled {F : List ContextType}
    (hF : ∀ t ∈ F, t ≠ ContextType.Empty) (rest : List ContextType) (c : ContextType) :
    addFirst (F ++ ContextType.Empty :: rest) c = F ++ c :: rest := by
  induction F with
  | nil => simp [addFirst]
  | cons f fs ih =>
    have hf : f ≠ ContextType.Empty := hF f (List.mem_cons_self f fs)
    simp only [List.cons_append, addFirst, if_neg hf, List.cons.injEq, true_and]
    exact ih fun t ht => hF t (List.mem_cons_of_mem f ht)

theorem applyCalls_filled : ∀ (l F : List ContextType) (k : Nat),
    (∀ t ∈ F, t ≠ ContextType.Empty) → (∀ t ∈ l, t ≠ ContextType.Empty) →
    (applyCalls ⟨F ++ List.replicate k ContextType.Empty⟩ l).calls =
      F ++ l.take k ++ List.replicate (k - l.length) ContextType.Empty := by
  intro l
  induction l with
  | nil => intro F k hF _; simp [applyCalls]
  | cons c cs ih =>
    intro F k hF hl
    have hc : c ≠ ContextType.Empty := hl c (List.mem_cons_self c cs)
    have hcs : ∀ t ∈ cs, t ≠ ContextType.Empty :=
      fun t ht => hl t (List.mem_cons_of_mem c ht)
    cases k with
    | zero =>
      simp only [List.replicate, List.append_nil, applyCalls, ErrorContext.add_call,
        addFirst_no_empty hF c]
      have := ih F 0 hF hcs
      simp only [List.replicate, List.append_nil] at this
      simp [this]
    | succ k' =>
      simp only [List.replicate, applyCalls, ErrorContext.add_call,
        addFirst_filled hF (List.replicate k' ContextType.Empty) c]
      have hF' : ∀ t ∈ F ++ [c], t ≠ ContextType.Empty := by
        intro t ht
        rcases List.mem_append.mp ht with h | h
        · exact hF t h
        · simp only [List.mem_singleton] at h; subst h; exact hc
      have := ih (F ++ [c]) k' hF' hcs
      rw [show F ++ c :: List.replicate k' ContextType.Empty =
        (F ++ [c]) ++ List.replicate k' ContextType.Empty by simp]
      rw [this]
      simp [List.append_assoc, Nat.succ_sub_succ]

theorem applyCalls_new (l : List ContextType)
    (hl : ∀ t ∈ l, t ≠ ContextType.Empty) :
    (applyCalls ErrorContext.new l).calls =
      l.take 6 ++ List.replicate (6 - l.length) ContextType.Empty := by
  have h0 : ∀ t ∈ ([] : List ContextType), t ≠ ContextType.Empty := by simp
  have := applyCalls_filled l [] 6 h0 hl
  simpa [ErrorContext.new, MAX_THREAD_CALL_STACK] using this

theorem displayCallsFrom_filled : ∀ (l : List ContextType) (k index : Nat),
    (∀ t ∈ l, t ≠ ContextType.Empty) →
    displayCallsFrom (l ++ List.replicate k ContextType.Empty) index =
      specNumberedLines l index := by
  intro l
  induction l with
  | nil =>
    intro k index _
    cases k with
    | zero => rfl
    | succ k' => simp [List.replicate, displayCallsFrom, specNumberedLines]
  | cons c cs ih =>
    intro k index hl
    have hc : c ≠ ContextType.Empty := hl c (List.mem_cons_self c cs)
    simp only [List.cons_append, displayCallsFrom, if_neg hc, specNumberedLines,
      List.append_eq]
    rw [ih k (index + 1) fun t ht => hl t (List.mem_cons_of_mem c ht)]

theorem applyCalls_shape : ∀ (l F : List ContextType) (k : Nat),
    (∀ t ∈ F, t ≠ ContextType.Empty) →
    ∃ F' k', (∀ t ∈ F', t ≠ ContextType.Empty) ∧
      (applyCalls ⟨F ++ List.replicate k ContextType.Empty⟩ l).calls =
        F' ++ List.replicate k' ContextType.Empty := by
  intro l
  induction l with
  | nil => intro F k hF; exact ⟨F, k, hF, rfl⟩
  | cons c cs ih =>
    intro F k hF
    by_cases hc : c = ContextType.Empty
    · subst hc
      simpa only [applyCalls, ErrorContext.add_call, addFirst_empty] using ih F k hF
    · cases k with
      | zero =>
        simp only [List.replicate, List.append_nil, applyCalls, ErrorContext.add_call,
          addFirst_no_empty hF c]
        have := ih F 0 hF
        simpa only [List.replicate, List.append_nil] using this
      | succ k' =>
        simp only [List.replicate, applyCalls, ErrorContext.add_call,
          addFirst_filled hF (List.replicate k' ContextType.Empty) c]
        have hF' : ∀ t ∈ F ++ [c], t ≠ ContextType.Empty := by
          intro t ht
          rcases List.mem_append.mp ht with h | h
          · exact hF t h
          · simp only [List.mem_singleton] at h; subst h; exact hc
        have := ih (F ++ [c]) k' hF'
        rw [show F ++ c :: List.replicate k' ContextType.Empty =
          (F ++ [c]) ++ List.replicate k' ContextType.Empty by simp]
        exact this

/-- Two error contexts with the same calls array are the same context. -/
theorem ErrorContext.eq_of_calls {a b : ErrorContext} (h : a.calls = b.calls) :
    a = b := by
  cases a; cases b; cases h; rfl

/-- The shape of every reachable context: a block of non-Empty tags followed
by Empty slots only. -/
theorem applyCalls_new_shape (l : List ContextType) :
    ∃ F k, (∀ t ∈ F, t ≠ ContextType.Empty) ∧
      (applyCalls ErrorContext.new l).calls = F ++ List.replicate k ContextType.Empty := by
  have hnew : ErrorContext.new = ⟨[] ++ List.replicate 6 ContextType.Empty⟩ := rfl
  rw [hnew]
  exact applyCalls_shape l [] 6 (by simp)

/-! ### The claims -/

/-- C9: recording the sentinel tag `ContextType::Empty` leaves the calls
array unchanged — `add_call` writes `Empty` over the first `Empty` slot (or
over nothing), so the stored call sequence and the formatted report are
those of the untouched context. -/
theorem C9_record_empty_is_identity (e : ErrorContext) :
    e.add_call ContextType.Empty = e ∧
      (e.add_call ContextType.Empty).display = e.display := by
  have h : e.add_call ContextType.Empty = e := by
    cases e with
    | mk calls => simp [ErrorContext.add_call, addFirst_empty]
  exact ⟨h, by rw [h]⟩

/-- C9's theorem at a concrete context. -/
theorem C9_record_empty_is_identity_witness :
    ErrorContext.new.add_call ContextType.Empty = ErrorContext.new ∧
      (ErrorContext.new.add_call ContextType.Empty).display = ErrorContext.new.display :=
  C9_record_empty_is_identity ErrorContext.new

/-- C8: in every context reachable from `new()` by `add_call` operations,
Empty entries only ever trail: a slot at an index after an Empty slot is
itself Empty (out-of-range reads default to Empty). -/
theorem C8_empties_only_trail (l : List ContextType) (i j : Nat) (hij : i < j)
    (hi : (applyCalls ErrorContext.new l).calls.getD i ContextType.Empty
        = ContextType.Empty) :
    (applyCalls ErrorContext.new l).calls.getD j ContextType.Empty
        = ContextType.Empty := by
  obtain ⟨F, k, hF, hcalls⟩ := applyCalls_new_shape l
  rw [hcalls] at hi ⊢
  by_cases hjlen : (F ++ List.replicate k ContextType.Empty).length ≤ j
  · exact List.getD_eq_default _ _ hjlen
  · by_cases hiF : i < F.length
    · exfalso
      rw [List.getD_append _ _ _ _ hiF, List.getD_eq_getElem _ _ hiF] at hi
      exact hF _ (List.getElem_mem hiF) hi
    · have hjF : F.length ≤ j := le_trans (le_of_not_lt hiF) (le_of_lt hij)
      rw [List.getD_append_right _ _ _ _ hjF, List.getD_eq_getElem?_getD,
        List.getElem?_getD_replicate_default_eq]

/-- C8's theorem at a concrete context and pair of indices. -/
theorem C8_empties_only_trail_witness :
    (applyCalls ErrorContext.new [ContextType.Screen ScreenContext.Render]).calls.getD 5
        ContextType.Empty = ContextType.Empty :=
  C8_empties_only_trail [ContextType.Screen ScreenContext.Render] 3 5 (by decide)
    (by decide)

/-- C3 as stated is false: `add_call` with the sentinel `Empty` is a no-op,
so in a sequence of 7 calls whose first call records `Empty`, the stored
array is not the first 6 tags of the sequence and the 7th call still
changes the array (it fills the slot the `Empty` call did not use). -/
theorem C3_counterexample :
    ¬ ((applyCalls ErrorContext.new
          [ContextType.Empty, ContextType.Screen ScreenContext.Render,
            ContextType.Pty PtyContext.SpawnTerminal, ContextType.IPCServer,
            ContextType.StdinHandler, ContextType.AsyncTask,
            ContextType.App AppContext.Exit]).calls =
        [ContextType.Empty, ContextType.Screen ScreenContext.Render,
          ContextType.Pty PtyContext.SpawnTerminal, ContextType.IPCServer,
          ContextType.StdinHandler, ContextType.AsyncTask,
          ContextType.App AppContext.Exit].take 6 ∧
      applyCalls ErrorContext.new
          [ContextType.Empty, ContextType.Screen ScreenContext.Render,
            ContextType.Pty PtyContext.SpawnTerminal, ContextType.IPCServer,
            ContextType.StdinHandler, ContextType.AsyncTask,
            ContextType.App AppContext.Exit] =
        applyCalls ErrorContext.new
          ([ContextType.Empty, ContextType.Screen ScreenContext.Render,
            ContextType.Pty PtyContext.SpawnTerminal, ContextType.IPCServer,
            ContextType.StdinHandler, ContextType.AsyncTask,
            ContextType.App AppContext.Exit].take 6)) := by
  decide

/-- C3 amended: for every sequence of more than 6 `add_call` calls of
non-Empty tags starting from a fresh context, the calls array stores exactly
the first 6 tags, and truncating the sequence anywhere at or after the 6th
call yields the same context — the 7th call onward are silent no-ops. -/
theorem C3_amended_first_six (l : List ContextType) (k : Nat)
    (hne : ∀ t ∈ l, t ≠ ContextType.Empty) (hlen : 6 < l.length) (hk : 6 ≤ k) :
    (applyCalls ErrorContext.new l).calls = l.take 6 ∧
      applyCalls ErrorContext.new (l.take k) = applyCalls ErrorContext.new (l.take 6) := by
  have h1 : (applyCalls ErrorContext.new l).calls = l.take 6 := by
    rw [applyCalls_new l hne]
    have : 6 - l.length = 0 := by omega
    simp [this]
  refine ⟨h1, ErrorContext.eq_of_calls ?_⟩
  have hk6 : ∀ t ∈ l.take k, t ≠ ContextType.Empty :=
    fun t ht => hne t (List.mem_of_mem_take ht)
  have h6 : ∀ t ∈ l.take 6, t ≠ ContextType.Empty :=
    fun t ht => hne t (List.mem_of_mem_take ht)
  rw [applyCalls_new _ hk6, applyCalls_new _ h6]
  have e1 : (l.take k).take 6 = l.take 6 := by
    rw [List.take_take]
    have : 6 ⊓ k = 6 := by omega
    rw [this]
  have e2 : (l.take 6).take 6 = l.take 6 := by
    rw [List.take_take]; simp
  have e3 : 6 - (l.take k).length = 0 := by
    simp only [List.length_take]; omega
  have e4 : 6 - (l.take 6).length = 0 := by
    simp only [List.length_take]; omega
  rw [e1, e2, e3, e4]

/-- C3's amended theorem at a concrete 7-call sequence. -/
theorem C3_amended_first_six_witness :
    (applyCalls ErrorContext.new
        [ContextType.Screen ScreenContext.Render, ContextType.Pty PtyContext.SpawnTerminal,
          ContextType.IPCServer, ContextType.StdinHandler, ContextType.AsyncTask,
          ContextType.App AppContext.Exit, ContextType.Plugin PluginContext.Load]).calls =
      [ContextType.Screen ScreenContext.Render, ContextType.Pty PtyContext.SpawnTerminal,
        ContextType.IPCServer, ContextType.StdinHandler, ContextType.AsyncTask,
        ContextType.App AppContext.Exit, ContextType.Plugin PluginContext.Load].take 6 ∧
    applyCalls ErrorContext.new
        ([ContextType.Screen ScreenContext.Render, ContextType.Pty PtyContext.SpawnTerminal,
          ContextType.IPCServer, ContextType.StdinHandler, ContextType.AsyncTask,
          ContextType.App AppContext.Exit, ContextType.Plugin PluginContext.Load].take 7) =
      applyCalls ErrorContext.new
        ([ContextType.Screen ScreenContext.Render, ContextType.Pty PtyContext.SpawnTerminal,
          ContextType.IPCServer, ContextType.StdinHandler, ContextType.AsyncTask,
          ContextType.App AppContext.Exit, ContextType.Plugin PluginContext.Load].take 6) :=
  C3_amended_first_six
    [ContextType.Screen ScreenContext.Render, ContextType.Pty PtyContext.SpawnTerminal,
      ContextType.IPCServer, ContextType.StdinHandler, ContextType.AsyncTask,
      ContextType.App AppContext.Exit, ContextType.Plugin PluginContext.Load] 7
    (by decide) (by decide) (by decide)

/-- C4 as stated is false: recording the sentinel tag `Empty` on a fresh
context is a single `add_call` call (a sequence of length 1 ≤ 6), yet the
report is the bare header — the numbered line the claim requires for that
tag is missing, because the `Display` loop stops at the first Empty slot. -/
theorem C4_counterexample :
    (applyCalls ErrorContext.new [ContextType.Empty]).display ≠
        "Originating Thread(s):\n" ++ specNumberedLines [ContextType.Empty] 0 ∧
      (applyCalls ErrorContext.new [ContextType.Empty]).display =
        "Originating Thread(s):\n" := by
  constructor
  · decide
  · decide

/-- C4 amended: for every sequence of at most 6 `add_call` calls of
non-Empty tags on a fresh context, the report is the header line followed by
exactly those tags, one numbered line per tag, in call order, numbered from
1 (for the empty sequence — a fresh `new()` context — it is exactly the
header line). -/
theorem C4_amended_report_lists_calls (l : List ContextType)
    (hlen : l.length ≤ 6) (hne : ∀ t ∈ l, t ≠ ContextType.Empty) :
    (applyCalls ErrorContext.new l).display =
      "Originating Thread(s):\n" ++ specNumberedLines l 0 := by
  rw [ErrorContext.display, applyCalls_new l hne, List.take_of_length_le hlen,
    displayCallsFrom_filled l (6 - l.length) 0 hne]

/-- C4's amended theorem at a concrete 2-call sequence. -/
theorem C4_amended_report_lists_calls_witness :
    (applyCalls ErrorContext.new
        [ContextType.Screen ScreenContext.Render,
          ContextType.Pty PtyContext.SpawnTerminal]).display =
      "Originating Thread(s):\n" ++
        specNumberedLines
          [ContextType.Screen ScreenContext.Render,
            ContextType.Pty PtyContext.SpawnTerminal] 0 :=
  C4_amended_report_lists_calls
    [ContextType.Screen ScreenContext.Render, ContextType.Pty PtyContext.SpawnTerminal]
    (by decide) (by decide)

/-- C1: the code contradicts the claim.  On a non-main thread whose send to
the supervisor fails, `handle_panic` calls `.unwrap()` on the `Err` returned
by `send` (`errors.rs` lines 64–68), so the handler itself panics instead of
swallowing the failure and returning normally; nothing is delivered. -/
theorem C1_failed_send_panics_handler :
    (handle_panic (some "plugin_thread") none none ErrorContext.new "trace" false).outcome
        = PanicOutcome.panicked ∧
      (handle_panic (some "plugin_thread") none none ErrorContext.new "trace" false).outcome
        ≠ PanicOutcome.ret ∧
      (handle_panic (some "plugin_thread") none none ErrorContext.new "trace" false).sent
        = [] := by
  refine ⟨rfl, by decide, rfl⟩

set_option maxRecDepth 200000 in
/-- C2 as stated is false: at the claimed input the report puts the
Diagnostic Context's trail (with "screen_thread" and "pty_thread") before
the header line (with "thread 'main'", "boom" and "x.src:42"), so the five
substrings do not occur in the claimed relative order. -/
theorem C2_counterexample :
    ¬ (InOrderE
        (["thread 'main'", "boom", "x.src:42", "screen_thread", "pty_thread"].map
          String.data) c2report.data ∧
      ∃ code, code ≠ 0 ∧ c2result.outcome = PanicOutcome.exit code) := by
  rintro ⟨h, -⟩
  exact absurd (inOrderB_complete h) (by decide)

set_option maxRecDepth 200000 in
/-- C2 amended: at the claimed input the five substrings occur in the order
the report actually emits them — trail first, then the header — namely
"screen_thread", "pty_thread", "thread 'main'", "boom", "x.src:42", and the
process terminates with the non-zero exit status 1. -/
theorem C2_amended_report_order :
    InOrderE
        (["screen_thread", "pty_thread", "thread 'main'", "boom", "x.src:42"].map
          String.data) c2report.data ∧
      (∃ code, code ≠ 0 ∧ c2result.outcome = PanicOutcome.exit code) ∧
      c2result.printed = [c2report] := by
  refine ⟨inOrderB_sound (by decide), ⟨1, by decide, rfl⟩, rfl⟩


/-- C5: a panic on a non-main thread named "plugin_thread" with neither
message nor location makes `handle_panic` deliver exactly one
`AppInstruction::Error` on the supervisor channel, whose report contains
"thread 'plugin_thread' panicked" and the recorded trail (the context's
formatted report), and the handler returns without printing or exiting
(the send outcome is delivery succeeding, the failure path being C1's
subject). -/
theorem C5_plugin_thread_report (err_ctx : ErrorContext) (backtraceStr : String) :
    ∃ report,
      (handle_panic (some "plugin_thread") none none err_ctx backtraceStr true).sent
          = [AppInstruction.Error report] ∧
        strOccurs "thread 'plugin_thread' panicked" report ∧
        strOccurs err_ctx.display report ∧
        (handle_panic (some "plugin_thread") none none err_ctx backtraceStr true).outcome
          = PanicOutcome.ret ∧
        (handle_panic (some "plugin_thread") none none err_ctx backtraceStr true).printed
          = [] := by
  have hr : handle_panic (some "plugin_thread") none none err_ctx backtraceStr true =
      { printed := [],
        sent := [AppInstruction.Error
          (composeBacktrace "plugin_thread" none none err_ctx backtraceStr)],
        outcome := PanicOutcome.ret } := rfl
  refine ⟨composeBacktrace "plugin_thread" none none err_ctx backtraceStr,
    by rw [hr], ?_, ?_, by rw [hr], by rw [hr]⟩
  · simp only [strOccurs, composeBacktrace, String.data_append, List.append_assoc]
    have hmid : occursIn "thread 'plugin_thread' panicked".data
        ("\x0a\x1b[0;0mError: \x1b[0;31mthread '".data ++
          ("plugin_thread".data ++ "' panicked\x0a\x1b[0;0m".data)) :=
      ⟨"\x0a\x1b[0;0mError: \x1b[0;31m".data, "\x0a\x1b[0;0m".data, by decide⟩
    exact occursIn_of_parts err_ctx.display.data backtraceStr.data _ hmid
      (by simp [List.append_assoc])
  · simp only [strOccurs, composeBacktrace, String.data_append, List.append_assoc]
    exact ⟨[], "\x0a\x1b[0;0mError: \x1b[0;31mthread '".data ++
      ("plugin_thread".data ++ ("' panicked\x0a\x1b[0;0m".data ++ backtraceStr.data)),
      by simp [List.append_assoc]⟩


/-- C10: a panic on a thread with no name gets the label "unnamed" in the
report's header, and "unnamed" is not "main", so the panic is routed as a
non-main-thread panic: the report is sent on the supervisor channel and
nothing is printed or exited (send delivery succeeding). -/
theorem C10_unnamed_thread (msg : Option String) (location : Option Location)
    (err_ctx : ErrorContext) (backtraceStr : String) :
    ∃ report,
      (handle_panic none msg location err_ctx backtraceStr true).sent
          = [AppInstruction.Error report] ∧
        strOccurs "thread 'unnamed'" report ∧
        (handle_panic none msg location err_ctx backtraceStr true).outcome
          = PanicOutcome.ret ∧
        (handle_panic none msg location err_ctx backtraceStr true).printed = [] := by
  have hr : handle_panic none msg location err_ctx backtraceStr true =
      { printed := [],
        sent := [AppInstruction.Error
          (composeBacktrace "unnamed" msg location err_ctx backtraceStr)],
        outcome := PanicOutcome.ret } := rfl
  refine ⟨composeBacktrace "unnamed" msg location err_ctx backtraceStr,
    by rw [hr], ?_, by rw [hr], by rw [hr]⟩
  cases location with
  | none =>
    cases msg with
    | none =>
      simp only [strOccurs, composeBacktrace, String.data_append, List.append_assoc]
      have hmid : occursIn "thread 'unnamed'".data
          ("\x0a\x1b[0;0mError: \x1b[0;31mthread '".data ++
            ("unnamed".data ++ "' panicked\x0a\x1b[0;0m".data)) :=
        ⟨"\x0a\x1b[0;0mError: \x1b[0;31m".data, " panicked\x0a\x1b[0;0m".data, by decide⟩
      exact occursIn_of_parts err_ctx.display.data backtraceStr.data _ hmid
        (by simp [List.append_assoc])
    | some m =>
      simp only [strOccurs, composeBacktrace, String.data_append, List.append_assoc]
      have hmid : occursIn "thread 'unnamed'".data
          ("\x0a\x1b[0;0mError: \x1b[0;31mthread '".data ++
            ("unnamed".data ++ "' panicked at '".data)) :=
        ⟨"\x0a\x1b[0;0mError: \x1b[0;31m".data, " panicked at '".data, by decide⟩
      exact occursIn_of_parts err_ctx.display.data
        (m.data ++ ("'\x0a\x1b[0;0m".data ++ backtraceStr.data)) _ hmid
        (by simp [List.append_assoc])
  | some l =>
    cases msg with
    | none =>
      simp only [strOccurs, composeBacktrace, String.data_append, List.append_assoc]
      have hmid : occursIn "thread 'unnamed'".data
          ("\x0a\x1b[0;0mError: \x1b[0;31mthread '".data ++
            ("unnamed".data ++ "' panicked: ".data)) :=
        ⟨"\x0a\x1b[0;0mError: \x1b[0;31m".data, " panicked: ".data, by decide⟩
      exact occursIn_of_parts err_ctx.display.data
        (l.file.data ++ (":".data ++ ((toString l.line).data ++
          ("\x0a\x1b[0;0m".data ++ backtraceStr.data)))) _ hmid
        (by simp [List.append_assoc])
    | some m =>
      simp only [strOccurs, composeBacktrace, String.data_append, List.append_assoc]
      have hmid : occursIn "thread 'unnamed'".data
          ("\x0a\x1b[0;0mError: \x1b[0;31mthread '".data ++
            ("unnamed".data ++ "' panicked at '".data)) :=
        ⟨"\x0a\x1b[0;0mError: \x1b[0;31m".data, " panicked at '".data, by decide⟩
      exact occursIn_of_parts err_ctx.display.data
        (m.data ++ ("': ".data ++ (l.file.data ++ (":".data ++
          ((toString l.line).data ++ ("\x0a\x1b[0;0m".data ++ backtraceStr.data)))))) _ hmid
        (by simp [List.append_assoc])


/-- C6: in each of the four combinations of message present/absent and
location present/absent, the report `handle_panic` composes (the
`match (info.location(), msg)` embedded as `composeBacktrace`) is the
Diagnostic Context's formatted trail, then the header line naming the
thread — beginning "thread '<name>' panicked" and embedding whichever of
message and location are available — then the native stack trace. -/
theorem C6_report_well_formed (thread : String) (msg : Option String)
    (location : Option Location) (err_ctx : ErrorContext) (backtraceStr : String) :
    ∃ rest : String,
      composeBacktrace thread msg location err_ctx backtraceStr =
          err_ctx.display ++ "\x0a\x1b[0;0mError: \x1b[0;31mthread '" ++ thread ++
            "' panicked" ++ rest ++ "\x0a\x1b[0;0m" ++ backtraceStr ∧
        (∀ m, msg = some m → strOccurs m rest) ∧
        (∀ l, location = some l →
          strOccurs (l.file ++ ":" ++ toString l.line) rest) := by
  cases location with
  | some l =>
    cases msg with
    | some m =>
      refine ⟨" at '" ++ m ++ "': " ++ l.file ++ ":" ++ toString l.line, ?_, ?_, ?_⟩
      · simp only [composeBacktrace]
        rw [show ("' panicked at '" : String) = "' panicked" ++ " at '" from rfl]
        apply String.ext
        simp [String.data_append, List.append_assoc]
      · intro m' hm
        obtain rfl : m = m' := by injection hm
        refine ⟨" at '".data,
          "': ".data ++ (l.file.data ++ (":".data ++ (toString l.line).data)), ?_⟩
        simp [String.data_append, List.append_assoc]
      · intro l' hl
        obtain rfl : l = l' := by injection hl
        refine ⟨" at '".data ++ (m.data ++ "': ".data), [], ?_⟩
        simp [String.data_append, List.append_assoc]
    | none =>
      refine ⟨": " ++ l.file ++ ":" ++ toString l.line, ?_, ?_, ?_⟩
      · simp only [composeBacktrace]
        rw [show ("' panicked: " : String) = "' panicked" ++ ": " from rfl]
        apply String.ext
        simp [String.data_append, List.append_assoc]
      · exact fun m hm => Option.noConfusion hm
      · intro l' hl
        obtain rfl : l = l' := by injection hl
        refine ⟨": ".data, [], ?_⟩
        simp [String.data_append, List.append_assoc]
  | none =>
    cases msg with
    | some m =>
      refine ⟨" at '" ++ m ++ "'", ?_, ?_, ?_⟩
      · simp only [composeBacktrace]
        rw [show ("' panicked at '" : String) = "' panicked" ++ " at '" from rfl,
          show ("'\x0a\x1b[0;0m" : String) = "'" ++ "\x0a\x1b[0;0m" from rfl]
        apply String.ext
        simp [String.data_append, List.append_assoc]
      · intro m' hm
        obtain rfl : m = m' := by injection hm
        refine ⟨" at '".data, "'".data, ?_⟩
        simp [String.data_append, List.append_assoc]
      · exact fun l hl => Option.noConfusion hl
    | none =>
      refine ⟨"", ?_, ?_, ?_⟩
      · simp only [composeBacktrace]
        rw [show ("' panicked\x0a\x1b[0;0m" : String)
            = "' panicked" ++ "\x0a\x1b[0;0m" from rfl]
        rw [String.append_empty]
        apply String.ext
        simp [String.data_append, List.append_assoc]
      · exact fun m hm => Option.noConfusion hm
      · exact fun l hl => Option.noConfusion hl


set_option maxRecDepth 4000 in
/-- C7: every tag converter is total and infallible.  Each conversion is a
total Lean function (matching the wildcard-free exhaustive Rust `match`es),
it is surjective — every sub-tag is the image of an instruction variant, so
no tag is unreachable — and distinct instruction variants are never merged
into one tag: for the payload-erased instruction types the conversion is
injective, and for `AppInstruction` (whose `Error` variant carries the
report string) equal tags force equal values or two `Error`s. -/
theorem C7_converters_total_infallible :
    Function.Surjective ScreenContext.fromInstruction ∧
      Function.Injective ScreenContext.fromInstruction ∧
      Function.Surjective PtyContext.fromInstruction ∧
      Function.Injective PtyContext.fromInstruction ∧
      Function.Surjective PluginContext.fromInstruction ∧
      Function.Injective PluginContext.fromInstruction ∧
      Function.Surjective AppContext.fromInstruction ∧
      (∀ a b : AppInstruction,
        AppContext.fromInstruction a = AppContext.fromInstruction b →
          a = b ∨ ∃ r r', a = AppInstruction.Error r ∧ b = AppInstruction.Error r') := by
  refine ⟨by decide, by decide, by decide, by decide, by decide, by decide, ?_, ?_⟩
  · intro c
    cases c with
    | GetState => exact ⟨AppInstruction.GetState (), rfl⟩
    | SetState => exact ⟨AppInstruction.SetState (), rfl⟩
    | Exit => exact ⟨AppInstruction.Exit, rfl⟩
    | Error => exact ⟨AppInstruction.Error "", rfl⟩
  · intro a b h
    cases a <;> cases b <;> simp_all [AppContext.fromInstruction]

end Mosaic
